import Mathlib

/-
Verification of the scalp-comparisor detection-aggregation pipeline.

The definitions below are a shallow embedding of the TypeScript source
(src/app/api/analyze/route.ts and the streaming variants of the same
route).  JavaScript numbers are modelled as exact rationals; `Math.round`
becomes `jsRound` (floor of x + 1/2, matching the JS tie-towards-plus-
infinity behaviour); JS `undefined` for optional fields becomes `Option`;
the `Infinity`-initialised min/max accumulators become an `Option` of a
quadruple that is `none` until the first geometric update (Math.min with
Infinity returns its finite argument, exactly the behaviour of the first
update of the option).  The external detector (network call plus
`extractData`) is abstracted as an oracle mapping a confidence threshold
to an extracted response, following the claim statements which quantify
over detector oracles; a failed HTTP call is an `Except.error`.
-/

namespace ScalpComparisor

/-- A coordinate in source-image pixel space. -/
structure Point where
  x : ℚ
  y : ℚ
deriving DecidableEq, Repr

/-- An axis-aligned bounding box in center-based coordinates. -/
structure BBox where
  x : ℚ
  y : ℚ
  width : ℚ
  height : ℚ
deriving DecidableEq, Repr

/-- One detected region as reported by the external service
(type `RoboflowPrediction` in the source; `class` is renamed `cls`
because `class` is a reserved word in Lean). -/
structure RoboflowPrediction where
  x : ℚ
  y : ℚ
  width : ℚ
  height : ℚ
  confidence : ℚ
  cls : String
  points : Option (List Point)
deriving DecidableEq, Repr

/-- The uniform tuple produced by `extractData` from one raw detector
response: prediction list, optional mask image, recovered dimensions. -/
structure Extracted where
  predictions : List RoboflowPrediction
  maskImage : Option String
  imageWidth : ℚ
  imageHeight : ℚ
deriving DecidableEq, Repr

/-- The per-image aggregated result (type `ImageResult` in the source).
`area` and `confidence` are integers because the source applies
`Math.round` to them. -/
structure ImageResult where
  area : ℤ
  areaPercentage : ℚ
  imageWidth : ℚ
  imageHeight : ℚ
  confidence : ℤ
  detected : Bool
  boundingBox : Option BBox
  allPolygons : Option (List (List Point))
  maskImage : Option String
deriving DecidableEq, Repr

/-- JS `Math.round`: half-way cases round towards plus infinity. -/
def jsRound (q : ℚ) : ℤ := ⌊q + 1 / 2⌋

/-- Shoelace-formula polygon area, translated from `calculatePolygonArea`:
a fold over indices `i` in `0..n-1` with `j = (i+1) % n`, accumulating
`p[i].x * p[j].y - p[j].x * p[i].y`, then absolute value of half. -/
def calculatePolygonArea (points : List Point) : ℚ :=
  if points.length < 3 then 0
  else
    |(List.range points.length).foldl
      (fun area i =>
        area + (points.getD i ⟨0, 0⟩).x
                 * (points.getD ((i + 1) % points.length) ⟨0, 0⟩).y
             - (points.getD ((i + 1) % points.length) ⟨0, 0⟩).x
                 * (points.getD i ⟨0, 0⟩).y)
      0| / 2

/-- Cross term of the Shoelace formula for a pair of vertices. -/
def cross (a b : Point) : ℚ := a.x * b.y - b.x * a.y

/-- The Shoelace sum exactly as the spec words it:
`Σ (p_i.x * p_(i+1).y − p_(i+1).x * p_i.y)` with indices modulo `n`. -/
def specShoelaceSum (points : List Point) : ℚ :=
  ∑ i ∈ Finset.range points.length,
    cross (points.getD i ⟨0, 0⟩) (points.getD ((i + 1) % points.length) ⟨0, 0⟩)

/-- The target class label (`className` in `analyzeImageWithRoboflow`). -/
def targetClass : String := "bald spot"

/-- Case-insensitive class match used by the descent filter
(`p.class?.toLowerCase() === className.toLowerCase()`). -/
def matchesTarget (p : RoboflowPrediction) : Bool :=
  p.cls.toLower == targetClass.toLower

/-- Confidence value of the `t`-th descent attempt counted in tenths:
the loop variable `confidence` starts at `0.5` and decreases by `0.1`,
so the attempt with `tenths = t` calls the detector at `t / 10`. -/
def thresh (t : ℕ) : ℚ := (t : ℚ) / 10

/-- State of the confidence-descent loop when it exits: the surviving
filtered predictions, the retained mask image and dimensions, the
`descents` counter from the source, plus an instrumentation counter
`calls` recording how many detector calls were made. -/
structure LoopResult where
  predictions : List RoboflowPrediction
  maskImage : Option String
  imageWidth : ℚ
  imageHeight : ℚ
  descents : ℕ
  calls : ℕ
deriving DecidableEq, Repr

/-- The confidence-descent loop of `analyzeImageWithRoboflow`
(`while (confidence >= 0.1) { ... confidence -= 0.1; descents++ }`),
with the confidence measured in exact tenths so the thresholds tried are
`0.5, 0.4, 0.3, 0.2, 0.1`.  `tenths = 0` is the loop exit
(`confidence < 0.1`); at `tenths = t+1` the detector is called at
threshold `(t+1)/10`, the response is filtered to the target class, a
non-empty filtered set breaks out of the loop carrying the response
data, and otherwise the first-seen positive image dimensions are
retained and the descent continues. -/
def descend (oracle : ℚ → Except String Extracted) :
    ℕ → ℚ → ℚ → ℕ → ℕ → Except String LoopResult
  | 0, w, h, d, c => .ok ⟨[], none, w, h, d, c⟩
  | t + 1, w, h, d, c =>
    match oracle (thresh (t + 1)) with
    | .error e => .error e
    | .ok ex =>
      let filtered := ex.predictions.filter matchesTarget
      if 0 < filtered.length then
        .ok ⟨filtered, ex.maskImage, ex.imageWidth, ex.imageHeight, d, c + 1⟩
      else
        let w' := if w = 0 ∧ 0 < ex.imageWidth then ex.imageWidth else w
        let h' := if w = 0 ∧ 0 < ex.imageWidth then ex.imageHeight else h
        descend oracle t w' h' (d + 1) (c + 1)

/-- Bounds accumulator `(minX, minY, maxX, maxY)`.  The source
initialises `minX = Infinity` etc.; `none` models the untouched state. -/
def Bounds := ℚ × ℚ × ℚ × ℚ
deriving DecidableEq, Repr

/-- Extend the bounds with a single polygon vertex
(`minX = Math.min(minX, pt.x)` and the three analogous updates). -/
def extendPoint (b : Option Bounds) (px py : ℚ) : Option Bounds :=
  match b with
  | none => some (px, py, px, py)
  | some (mnx, mny, mxx, mxy) =>
    some (min mnx px, min mny py, max mxx px, max mxy py)

/-- Extend the bounds with a box: the source takes the minimum against
the left/top corner and the maximum against the right/bottom corner. -/
def extendBox (b : Option Bounds) (l t r bo : ℚ) : Option Bounds :=
  match b with
  | none => some (l, t, r, bo)
  | some (mnx, mny, mxx, mxy) =>
    some (min mnx l, min mny t, max mxx r, max mxy bo)

/-- Accumulator of the aggregation loop over surviving predictions. -/
structure AggState where
  totalArea : ℚ
  maxConfidence : ℚ
  allPolygons : List (List Point)
  bounds : Option Bounds
deriving DecidableEq, Repr

/-- One iteration of the aggregation loop (`for (const prediction of
predictions)`): track the maximum confidence; if the prediction has a
points list with at least 3 entries take the polygon path (Shoelace
area, record the polygon, extend bounds with every vertex); otherwise,
if both width and height are non-zero (JS truthiness), take the box
path (`width * height` area, extend bounds with the box corners);
otherwise contribute nothing. -/
def aggStep (s : AggState) (p : RoboflowPrediction) : AggState :=
  let mc := if s.maxConfidence < p.confidence then p.confidence else s.maxConfidence
  let tryBox : AggState :=
    if p.width ≠ 0 ∧ p.height ≠ 0 then
      { totalArea := s.totalArea + p.width * p.height
        maxConfidence := mc
        allPolygons := s.allPolygons
        bounds := extendBox s.bounds (p.x - p.width / 2) (p.y - p.height / 2)
          (p.x + p.width / 2) (p.y + p.height / 2) }
    else
      { s with maxConfidence := mc }
  match p.points with
  | some pts =>
    if 3 ≤ pts.length then
      { totalArea := s.totalArea + calculatePolygonArea pts
        maxConfidence := mc
        allPolygons := s.allPolygons ++ [pts]
        bounds := pts.foldl (fun b pt => extendPoint b pt.x pt.y) s.bounds }
    else tryBox
  | none => tryBox

/-- Initial accumulator (`totalArea = 0`, `maxConfidence = 0`, empty
polygon list, untouched bounds). -/
def aggInit : AggState := ⟨0, 0, [], none⟩

/-- The whole aggregation loop over the surviving predictions. -/
def aggFold (preds : List RoboflowPrediction) : AggState :=
  preds.foldl aggStep aggInit

/-- The area a single prediction contributes to `totalArea` (the
per-iteration increment of the aggregation loop). -/
def predictionArea (p : RoboflowPrediction) : ℚ :=
  match p.points with
  | some pts =>
    if 3 ≤ pts.length then calculatePolygonArea pts
    else if p.width ≠ 0 ∧ p.height ≠ 0 then p.width * p.height else 0
  | none => if p.width ≠ 0 ∧ p.height ≠ 0 then p.width * p.height else 0

/-- The `detected:false` result returned when no prediction survives or
when the total area is exactly 0. -/
def emptyImageResult (w h : ℚ) : ImageResult :=
  { area := 0, areaPercentage := 0, imageWidth := w, imageHeight := h
    confidence := 0, detected := false, boundingBox := none
    allPolygons := none, maskImage := none }

/-- The aggregation tail of `analyzeImageWithRoboflow`: run the loop,
return the empty result on zero total area, otherwise build the
combined bounding box from the bounds accumulator, guard the percentage
against a non-positive image area, and round area / percentage /
confidence as the source does. -/
def aggregate (predictions : List RoboflowPrediction) (maskImage : Option String)
    (imageWidth imageHeight : ℚ) : ImageResult :=
  let s := aggFold predictions
  if s.totalArea = 0 then emptyImageResult imageWidth imageHeight
  else
    let bbox := s.bounds.map fun b =>
      BBox.mk ((b.1 + b.2.2.1) / 2) ((b.2.1 + b.2.2.2) / 2)
        (b.2.2.1 - b.1) (b.2.2.2 - b.2.1)
    let totalImageArea := imageWidth * imageHeight
    let pct := if 0 < totalImageArea then s.totalArea / totalImageArea * 100 else 0
    { area := jsRound s.totalArea
      areaPercentage := (jsRound (pct * 100) : ℚ) / 100
      imageWidth := imageWidth
      imageHeight := imageHeight
      confidence := jsRound (s.maxConfidence * 100)
      detected := true
      boundingBox := bbox
      allPolygons := if s.allPolygons.isEmpty then none else some s.allPolygons
      maskImage := maskImage }

/-- Build the returned `ImageResult` from the state the descent loop
exited with: empty predictions give the `detected:false` early return
(with the retained dimensions), otherwise the aggregation runs. -/
def resultOfLoop (st : LoopResult) : ImageResult :=
  if st.predictions.isEmpty then emptyImageResult st.imageWidth st.imageHeight
  else aggregate st.predictions st.maskImage st.imageWidth st.imageHeight

/-- The function `analyzeImageWithRoboflow` for one image: run the confidence descent
from threshold `0.5` (five tenths) and build the result; a failed
detector call propagates as an error. -/
def analyzeImageWithRoboflow (oracle : ℚ → Except String Extracted) :
    Except String ImageResult :=
  (descend oracle 5 0 0 0 0).map resultOfLoop

/-- The four corners of a box-form prediction, derived from center ±
half extents, following the spec words for the union bounding box. -/
def specBoxCorners (p : RoboflowPrediction) : List Point :=
  [⟨p.x - p.width / 2, p.y - p.height / 2⟩,
   ⟨p.x + p.width / 2, p.y - p.height / 2⟩,
   ⟨p.x - p.width / 2, p.y + p.height / 2⟩,
   ⟨p.x + p.width / 2, p.y + p.height / 2⟩]

/-- The geometry a prediction feeds into the union bounding box
according to the spec words: every vertex of a polygon-form prediction,
every corner of a box-form prediction. -/
def specGeomPoints (p : RoboflowPrediction) : List Point :=
  match p.points with
  | some pts => if 3 ≤ pts.length then pts else specBoxCorners p
  | none => specBoxCorners p

/-- All geometry points of a prediction list, in order. -/
def specPoints (preds : List RoboflowPrediction) : List Point :=
  (preds.map specGeomPoints).flatten

/-- The union bounding box exactly as the spec words it: `minX, minY,
maxX, maxY` across the given points, then
`{x:(minX+maxX)/2, y:(minY+maxY)/2, width:maxX-minX, height:maxY-minY}`;
undefined for an empty point set. -/
def specUnionBBox (pts : List Point) : Option BBox :=
  match pts with
  | [] => none
  | q :: rest =>
    let mnx := rest.foldl (fun m t => min m t.x) q.x
    let mny := rest.foldl (fun m t => min m t.y) q.y
    let mxx := rest.foldl (fun m t => max m t.x) q.x
    let mxy := rest.foldl (fun m t => max m t.y) q.y
    some ⟨(mnx + mxx) / 2, (mny + mxy) / 2, mxx - mnx, mxy - mny⟩

/-- Pipeline stage names (type `StepName` in the source). -/
inductive StepName where
  | validate | prepare | analyze_before | analyze_after | finalize
deriving DecidableEq, Repr

/-- Stage status (type `StepStatus` in the source). -/
inductive StepStatus where
  | pending | running | completed
deriving DecidableEq, Repr

/-- One pipeline stage entry (type `StepProgress` in the source);
`duration` is set only when a stage completes. -/
structure StepProgress where
  step : StepName
  label : String
  status : StepStatus
  duration : Option ℤ
deriving DecidableEq, Repr

/-- The pair of per-image results (type `AnalysisResponse`). -/
structure AnalysisResponse where
  before : ImageResult
  after : ImageResult
deriving DecidableEq, Repr

/-- One newline-delimited event frame (type `SSEEvent` in the source). -/
inductive SSEEvent where
  | progress (steps : List StepProgress) (currentStep : StepName)
  | complete (steps : List StepProgress) (totalDuration : ℤ)
      (result : AnalysisResponse)
  | error (msg : String)
deriving DecidableEq, Repr

/-- Whether a frame is a `progress` frame. -/
def SSEEvent.isProgress : SSEEvent → Bool
  | .progress _ _ => true
  | _ => false

/-- Whether a frame is the `error` frame. -/
def SSEEvent.isError : SSEEvent → Bool
  | .error _ => true
  | _ => false

/-- Translation of `createInitialSteps` from the source: the five stages, pending. -/
def createInitialSteps : List StepProgress :=
  [⟨.validate, "Validating request", .pending, none⟩,
   ⟨.prepare, "Preparing images", .pending, none⟩,
   ⟨.analyze_before, "Analyzing before image", .pending, none⟩,
   ⟨.analyze_after, "Analyzing after image", .pending, none⟩,
   ⟨.finalize, "Generating results", .pending, none⟩]

/-- Translation of `updateStep`: set the status of the named step, and its duration
when one is supplied, leaving the other entries untouched. -/
def setStep (steps : List StepProgress) (name : StepName) (status : StepStatus)
    (duration : Option ℤ) : List StepProgress :=
  steps.map fun s =>
    if s.step = name then
      let dur := match duration with | some d => some d | none => s.duration
      { s with status := status, duration := dur }
    else s

/-- The sequential streaming handler `POST` (the variant that analyzes
the two images one after the other).  `hasBlobs` abstracts payload
validation; `apiKey` is the environment credential; the two oracles
stand for the detector as seen through the two base64 images; `clock`
supplies the successive values of `performance.now()` in call order
(index 0 is `totalStartTime`, index 1 the initial `stepStartTime`,
then one index per `startStep` or `completeStep`, and index 12 the
final reading used for `totalDuration`).  The returned list is the
sequence of emitted frames. -/
def POST_seq (hasBlobs : Bool) (apiKey : Option String)
    (oracleB oracleA : ℚ → Except String Extracted) (clock : ℕ → ℚ) :
    List SSEEvent :=
  let s0 := createInitialSteps
  let s1 := setStep s0 .validate .running none
  let e1 := SSEEvent.progress s1 .validate
  if ¬hasBlobs then
    [e1, .error "Both \x27before\x27 and \x27after\x27 images are required"]
  else
    match apiKey with
    | none => [e1, .error "Missing ROBOFLOW_API_KEY"]
    | some _ =>
      let s2 := setStep s1 .validate .completed (some (jsRound (clock 3 - clock 2)))
      let e2 := SSEEvent.progress s2 .validate
      let s3 := setStep s2 .prepare .running none
      let e3 := SSEEvent.progress s3 .prepare
      let s4 := setStep s3 .prepare .completed (some (jsRound (clock 5 - clock 4)))
      let e4 := SSEEvent.progress s4 .prepare
      let s5 := setStep s4 .analyze_before .running none
      let e5 := SSEEvent.progress s5 .analyze_before
      match analyzeImageWithRoboflow oracleB with
      | .error msg => [e1, e2, e3, e4, e5, .error msg]
      | .ok rB =>
        let s6 := setStep s5 .analyze_before .completed
          (some (jsRound (clock 7 - clock 6)))
        let e6 := SSEEvent.progress s6 .analyze_before
        let s7 := setStep s6 .analyze_after .running none
        let e7 := SSEEvent.progress s7 .analyze_after
        match analyzeImageWithRoboflow oracleA with
        | .error msg => [e1, e2, e3, e4, e5, e6, e7, .error msg]
        | .ok rA =>
          let s8 := setStep s7 .analyze_after .completed
            (some (jsRound (clock 9 - clock 8)))
          let e8 := SSEEvent.progress s8 .analyze_after
          let s9 := setStep s8 .finalize .running none
          let e9 := SSEEvent.progress s9 .finalize
          let s10 := setStep s9 .finalize .completed
            (some (jsRound (clock 11 - clock 10)))
          let e10 := SSEEvent.progress s10 .finalize
          let evC := SSEEvent.complete s10 (jsRound (clock 12 - clock 0)) ⟨rB, rA⟩
          [e1, e2, e3, e4, e5, e6, e7, e8, e9, e10, evC]

/-- The parallel streaming handler `POST` (the variant that starts both
analyses, marks both analyze steps running, and completes each as its
promise resolves).  `beforeFirst` selects which analysis finishes (or
fails) first, standing for the scheduler-dependent resolution order of
the two concurrent promises.  Clock indices: 0 `totalStartTime`,
1 initial `stepStartTime`, 2-3 validate start/end, 4-5 prepare
start/end, 6 `analyzeStart`, 7-8 the two analyze completions in
resolution order, 9-10 finalize start/end, 11 the final reading. -/
def POST_par (hasBlobs : Bool) (apiKey : Option String)
    (oracleB oracleA : ℚ → Except String Extracted) (clock : ℕ → ℚ)
    (beforeFirst : Bool) : List SSEEvent :=
  let s0 := createInitialSteps
  let s1 := setStep s0 .validate .running none
  let e1 := SSEEvent.progress s1 .validate
  if ¬hasBlobs then
    [e1, .error "Both \x27before\x27 and \x27after\x27 images are required"]
  else
    match apiKey with
    | none => [e1, .error "Missing ROBOFLOW_API_KEY"]
    | some _ =>
      let s2 := setStep s1 .validate .completed (some (jsRound (clock 3 - clock 2)))
      let e2 := SSEEvent.progress s2 .validate
      let s3 := setStep s2 .prepare .running none
      let e3 := SSEEvent.progress s3 .prepare
      let s4 := setStep s3 .prepare .completed (some (jsRound (clock 5 - clock 4)))
      let e4 := SSEEvent.progress s4 .prepare
      let s5 := setStep s4 .analyze_before .running none
      let e5 := SSEEvent.progress s5 .analyze_before
      let s6 := setStep s5 .analyze_after .running none
      let e6 := SSEEvent.progress s6 .analyze_after
      match analyzeImageWithRoboflow oracleB, analyzeImageWithRoboflow oracleA with
      | .error msg, _ => [e1, e2, e3, e4, e5, e6, .error msg]
      | .ok _, .error msg => [e1, e2, e3, e4, e5, e6, .error msg]
      | .ok rB, .ok rA =>
        let firstName : StepName := if beforeFirst then .analyze_before else .analyze_after
        let secondName : StepName := if beforeFirst then .analyze_after else .analyze_before
        let s7 := setStep s6 firstName .completed (some (jsRound (clock 7 - clock 6)))
        let e7 := SSEEvent.progress s7 firstName
        let s8 := setStep s7 secondName .completed (some (jsRound (clock 8 - clock 6)))
        let e8 := SSEEvent.progress s8 secondName
        let s9 := setStep s8 .finalize .running none
        let e9 := SSEEvent.progress s9 .finalize
        let s10 := setStep s9 .finalize .completed
          (some (jsRound (clock 10 - clock 9)))
        let e10 := SSEEvent.progress s10 .finalize
        let evC := SSEEvent.complete s10 (jsRound (clock 11 - clock 0)) ⟨rB, rA⟩
        [e1, e2, e3, e4, e5, e6, e7, e8, e9, e10, evC]

/-- Snapshot after validate starts. -/
def stepsVRun : List StepProgress :=
  setStep createInitialSteps .validate .running none

/-- Snapshot after validate completes with duration `d1`. -/
def stepsVDone (d1 : ℤ) : List StepProgress :=
  setStep stepsVRun .validate .completed (some d1)

/-- Snapshot after prepare starts. -/
def stepsPRun (d1 : ℤ) : List StepProgress :=
  setStep (stepsVDone d1) .prepare .running none

/-- Snapshot after prepare completes with duration `d2`. -/
def stepsPDone (d1 d2 : ℤ) : List StepProgress :=
  setStep (stepsPRun d1) .prepare .completed (some d2)

/-- Snapshot after analyze_before starts. -/
def stepsBRun (d1 d2 : ℤ) : List StepProgress :=
  setStep (stepsPDone d1 d2) .analyze_before .running none

/-- Snapshot after analyze_before completes (sequential handler). -/
def stepsBDone (d1 d2 d3 : ℤ) : List StepProgress :=
  setStep (stepsBRun d1 d2) .analyze_before .completed (some d3)

/-- Snapshot after analyze_after starts (sequential handler). -/
def stepsARun (d1 d2 d3 : ℤ) : List StepProgress :=
  setStep (stepsBDone d1 d2 d3) .analyze_after .running none

/-- Snapshot after analyze_after completes (sequential handler). -/
def stepsADone (d1 d2 d3 d4 : ℤ) : List StepProgress :=
  setStep (stepsARun d1 d2 d3) .analyze_after .completed (some d4)

/-- Snapshot after finalize starts (sequential handler). -/
def stepsFRun (d1 d2 d3 d4 : ℤ) : List StepProgress :=
  setStep (stepsADone d1 d2 d3 d4) .finalize .running none

/-- Snapshot after finalize completes (sequential handler). -/
def stepsFDone (d1 d2 d3 d4 d5 : ℤ) : List StepProgress :=
  setStep (stepsFRun d1 d2 d3 d4) .finalize .completed (some d5)

/-- Snapshot with both analyze steps running (parallel handler). -/
def stepsBothRun (d1 d2 : ℤ) : List StepProgress :=
  setStep (stepsBRun d1 d2) .analyze_after .running none

/-- Parallel handler, first completion of the two analyses. -/
def stepsPar1 (first : StepName) (d1 d2 dF : ℤ) : List StepProgress :=
  setStep (stepsBothRun d1 d2) first .completed (some dF)

/-- Parallel handler, second completion of the two analyses. -/
def stepsPar2 (first second : StepName) (d1 d2 dF dS : ℤ) : List StepProgress :=
  setStep (stepsPar1 first d1 d2 dF) second .completed (some dS)

/-- Parallel handler, finalize started. -/
def stepsParFRun (first second : StepName) (d1 d2 dF dS : ℤ) : List StepProgress :=
  setStep (stepsPar2 first second d1 d2 dF dS) .finalize .running none

/-- Parallel handler, finalize completed. -/
def stepsParFDone (first second : StepName) (d1 d2 dF dS d5 : ℤ) :
    List StepProgress :=
  setStep (stepsParFRun first second d1 d2 dF dS) .finalize .completed (some d5)

/-- A surviving polygon prediction whose exact Shoelace area is `1/4`,
small enough that `Math.round` sends the reported area to `0`. -/
def predTiny : RoboflowPrediction :=
  ⟨0, 0, 0, 0, 9 / 10, "bald spot", some [⟨0, 0⟩, ⟨1, 0⟩, ⟨0, 1 / 2⟩]⟩

/-- A detector oracle that reports the tiny polygon at every threshold. -/
def oracleTiny (_ : ℚ) : Except String Extracted :=
  .ok ⟨[predTiny], none, 100, 100⟩

/-- A box-form matching prediction used in the descent scenario. -/
def predLow : RoboflowPrediction := ⟨50, 50, 10, 10, 8 / 10, "bald spot", none⟩

/-- The descent scenario of the spec: empty responses at thresholds
`0.5`, `0.4`, `0.3`, `0.2`, one matching prediction at `0.1`. -/
def oracleLow (c : ℚ) : Except String Extracted :=
  if c = thresh 1 then .ok ⟨[predLow], some "mask", 200, 100⟩
  else .ok ⟨[], none, 200, 100⟩

/-- A surviving box-form prediction with a negative width. -/
def predNegBox : RoboflowPrediction := ⟨0, 0, -10, 10, 1 / 2, "bald spot", none⟩

/-- An oracle that reports the negative-width box at every threshold. -/
def oracleNegBox (_ : ℚ) : Except String Extracted :=
  .ok ⟨[predNegBox], none, 100, 100⟩

/-- A surviving triangle prediction with vertices (0,0), (10,0), (0,10). -/
def predTri : RoboflowPrediction :=
  ⟨5, 5, 0, 0, 1 / 2, "bald spot", some [⟨0, 0⟩, ⟨10, 0⟩, ⟨0, 10⟩]⟩

/-- A surviving prediction with a present but short points list (one
entry) and zero width, centered far away from the triangle. -/
def predDegenerate : RoboflowPrediction :=
  ⟨1000, 1000, 0, 6, 1 / 2, "bald spot", some [⟨1, 1⟩]⟩

/-- Box of the spec example: width = height = 10 centered at (0,0). -/
def predBoxA : RoboflowPrediction := ⟨0, 0, 10, 10, 6 / 10, "bald spot", none⟩

/-- Box of the spec example: width = height = 10 centered at (100,100). -/
def predBoxB : RoboflowPrediction := ⟨100, 100, 10, 10, 7 / 10, "bald spot", none⟩

/-- A detector oracle whose every response is empty. -/
def oracleEmpty (_ : ℚ) : Except String Extracted := .ok ⟨[], none, 0, 0⟩

/-- A constant clock for concrete runs of the handlers. -/
def clockZero (_ : ℕ) : ℚ := 0

/-- The square of the spec example, counter-clockwise. -/
def squareCCW : List Point := [⟨0, 0⟩, ⟨10, 0⟩, ⟨10, 10⟩, ⟨0, 10⟩]

/-- The exact result the pipeline produces for `oracleTiny` (a detected
region whose exact area `1/4` rounds to a reported area of `0`). -/
def resultTiny : ImageResult :=
  { area := 0, areaPercentage := 0, imageWidth := 100, imageHeight := 100
    confidence := 90, detected := true
    boundingBox := some ⟨1 / 2, 1 / 4, 1, 1 / 2⟩
    allPolygons := some [[⟨0, 0⟩, ⟨1, 0⟩, ⟨0, 1 / 2⟩]]
    maskImage := none }

/-- A loop state with one tiny surviving polygon prediction. -/
def stateTiny : LoopResult := ⟨[predTiny], none, 100, 100, 0, 1⟩

/-- A loop state with no surviving prediction. -/
def stateEmpty : LoopResult := ⟨[], none, 50, 40, 5, 5⟩

/-- Folding `acc + f i - g i` over a list equals the initial value plus
the sum of the per-element contributions. -/
theorem foldl_addsub_eq (f g : ℕ → ℚ) :
    ∀ (l : List ℕ) (a : ℚ),
      l.foldl (fun acc i => acc + f i - g i) a = a + (l.map fun i => f i - g i).sum
  | [], a => by simp
  | x :: xs, a => by
    rw [List.foldl_cons, foldl_addsub_eq f g xs, List.map_cons, List.sum_cons]
    ring

/-- The sum of a function mapped over `List.range n` is the
corresponding `Finset.range` sum. -/
theorem sum_map_range (h : ℕ → ℚ) :
    ∀ n : ℕ, ((List.range n).map h).sum = ∑ i ∈ Finset.range n, h i
  | 0 => by simp
  | n + 1 => by
    rw [List.range_succ, List.map_append, List.sum_append, Finset.sum_range_succ,
      sum_map_range h n]
    simp

/-- The source fold computes the absolute Shoelace sum halved, for every
input (the guard branch also matches because the Shoelace sum of fewer
than three vertices is zero only stated where the guard is false). -/
theorem calculatePolygonArea_eq (pts : List Point) :
    calculatePolygonArea pts =
      if pts.length < 3 then 0 else |specShoelaceSum pts| / 2 := by
  unfold calculatePolygonArea
  split
  · rfl
  · rw [foldl_addsub_eq
      (fun i => (pts.getD i ⟨0, 0⟩).x * (pts.getD ((i + 1) % pts.length) ⟨0, 0⟩).y)
      (fun i => (pts.getD ((i + 1) % pts.length) ⟨0, 0⟩).x * (pts.getD i ⟨0, 0⟩).y)
      (List.range pts.length) 0]
    rw [sum_map_range]
    rw [specShoelaceSum]
    simp [cross]

/-- Splitting the Shoelace sum of a nonempty list into its open path
part (consecutive indices) and the closing edge. -/
theorem shoelace_split (pts : List Point) (m : ℕ) (h : pts.length = m + 1) :
    specShoelaceSum pts =
      (∑ i ∈ Finset.range m, cross (pts.getD i ⟨0, 0⟩) (pts.getD (i + 1) ⟨0, 0⟩))
        + cross (pts.getD m ⟨0, 0⟩) (pts.getD 0 ⟨0, 0⟩) := by
  rw [specShoelaceSum, h, Finset.sum_range_succ, Nat.mod_self]
  congr 1
  apply Finset.sum_congr rfl
  intro i hi
  have hi' : i < m := Finset.mem_range.mp hi
  rw [Nat.mod_eq_of_lt (by omega)]

/-- Reading `getD` on a reversed list reads the mirrored index. -/
theorem getD_reverse (l : List Point) (i : ℕ) (h : i < l.length) (d : Point) :
    l.reverse.getD i d = l.getD (l.length - 1 - i) d := by
  rw [List.getD_eq_getElem?_getD, List.getD_eq_getElem?_getD,
    List.getElem?_reverse h]

/-- The antisymmetry of the Shoelace cross term. -/
theorem cross_antisymm (a b : Point) : cross a b = -cross b a := by
  unfold cross
  ring

/-- Reversing the vertex order negates the Shoelace sum. -/
theorem shoelace_reverse (pts : List Point) :
    specShoelaceSum pts.reverse = -specShoelaceSum pts := by
  cases hl : pts.length with
  | zero =>
    have hnil : pts = [] := List.length_eq_zero.mp hl
    subst hnil
    simp [specShoelaceSum]
  | succ m =>
    have hrev : pts.reverse.length = m + 1 := by simpa using hl
    rw [shoelace_split pts.reverse m hrev, shoelace_split pts m hl]
    have hg : ∀ i, i < m + 1 → pts.reverse.getD i ⟨0, 0⟩ = pts.getD (m - i) ⟨0, 0⟩ := by
      intro i hi
      rw [getD_reverse pts i (by omega) ⟨0, 0⟩]
      congr 1
      omega
    have hopen :
        (∑ i ∈ Finset.range m,
          cross (pts.reverse.getD i ⟨0, 0⟩) (pts.reverse.getD (i + 1) ⟨0, 0⟩))
          = -∑ i ∈ Finset.range m,
              cross (pts.getD i ⟨0, 0⟩) (pts.getD (i + 1) ⟨0, 0⟩) := by
      have step1 :
          (∑ i ∈ Finset.range m,
            cross (pts.reverse.getD i ⟨0, 0⟩) (pts.reverse.getD (i + 1) ⟨0, 0⟩))
            = ∑ i ∈ Finset.range m,
                cross (pts.getD (m - 1 - i + 1) ⟨0, 0⟩) (pts.getD (m - 1 - i) ⟨0, 0⟩) := by
        apply Finset.sum_congr rfl
        intro i hi
        have hi' : i < m := Finset.mem_range.mp hi
        rw [hg i (by omega), hg (i + 1) (by omega)]
        congr 2
        · omega
        · omega
      rw [step1,
        Finset.sum_range_reflect
          (fun j => cross (pts.getD (j + 1) ⟨0, 0⟩) (pts.getD j ⟨0, 0⟩)) m]
      rw [← Finset.sum_neg_distrib]
      apply Finset.sum_congr rfl
      intro i _
      rw [cross_antisymm]
    rw [hopen, hg m (by omega), hg 0 (by omega), Nat.sub_self, Nat.sub_zero,
      cross_antisymm]
    ring

/-- Reversing the vertex order leaves `calculatePolygonArea` unchanged. -/
theorem calculatePolygonArea_reverse (pts : List Point) :
    calculatePolygonArea pts.reverse = calculatePolygonArea pts := by
  rw [calculatePolygonArea_eq, calculatePolygonArea_eq, List.length_reverse,
    shoelace_reverse, abs_neg]

/-- Claim C4: for every list of at least 3 points, `calculatePolygonArea`
returns the absolute Shoelace sum halved (indices modulo n, the sum
written exactly as the spec words it in `specShoelaceSum`); hence it
returns the same value for a reversed-order list — in particular 100
for the square `[(0,0),(10,0),(10,10),(0,10)]` in either winding, the
clockwise winding spelled both as `squareCCW.reverse` and as the
explicit list `[(0,10),(10,10),(10,0),(0,0)]` — and it returns 0 for
every list of fewer than 3 points. -/
theorem calculatePolygonArea_spec :
    (∀ pts : List Point, pts.length < 3 → calculatePolygonArea pts = 0) ∧
    (∀ pts : List Point, 3 ≤ pts.length →
      calculatePolygonArea pts = |specShoelaceSum pts| / 2) ∧
    (∀ pts : List Point,
      calculatePolygonArea pts.reverse = calculatePolygonArea pts) ∧
    calculatePolygonArea squareCCW = 100 ∧
    calculatePolygonArea squareCCW.reverse = 100 ∧
    calculatePolygonArea [⟨0, 10⟩, ⟨10, 10⟩, ⟨10, 0⟩, ⟨0, 0⟩] = 100 := by
  refine ⟨?_, ?_, calculatePolygonArea_reverse, ?_, ?_, ?_⟩
  · intro pts h
    rw [calculatePolygonArea_eq, if_pos h]
  · intro pts h
    rw [calculatePolygonArea_eq, if_neg (by omega)]
  · norm_num [calculatePolygonArea, squareCCW, List.range_succ]
  · norm_num [calculatePolygonArea, squareCCW, List.range_succ]
  · norm_num [calculatePolygonArea, List.range_succ]

/-- Witness for C4: the hypotheses are dischargeable at concrete inputs
(a two-point list for the short branch, the square for the formula). -/
theorem calculatePolygonArea_spec_witness :
    calculatePolygonArea [⟨0, 0⟩, ⟨1, 1⟩] = 0 ∧
    calculatePolygonArea squareCCW = |specShoelaceSum squareCCW| / 2 :=
  ⟨calculatePolygonArea_spec.1 [⟨0, 0⟩, ⟨1, 1⟩] (by norm_num),
   calculatePolygonArea_spec.2.1 squareCCW (by norm_num [squareCCW])⟩

/-- For an always-responding oracle the descent loop returns normally,
makes at most as many further calls as it has attempts left, and ends
with no surviving prediction when no response ever contains a
matching-class prediction. -/
theorem descend_total (oracle : ℚ → Except String Extracted)
    (hok : ∀ cf, ∃ ex, oracle cf = .ok ex) :
    ∀ (t : ℕ) (w h : ℚ) (d c : ℕ),
      ∃ st, descend oracle t w h d c = .ok st ∧ st.calls ≤ c + t ∧
        ((∀ cf ex, oracle cf = .ok ex → ex.predictions.filter matchesTarget = []) →
          st.predictions = []) := by
  intro t
  induction t with
  | zero =>
    intro w h d c
    exact ⟨⟨[], none, w, h, d, c⟩, rfl, by dsimp only; omega, fun _ => rfl⟩
  | succ t ih =>
    intro w h d c
    obtain ⟨ex, hex⟩ := hok (thresh (t + 1))
    by_cases hf : 0 < (ex.predictions.filter matchesTarget).length
    · refine ⟨⟨ex.predictions.filter matchesTarget, ex.maskImage, ex.imageWidth,
        ex.imageHeight, d, c + 1⟩, ?_, by dsimp only; omega, ?_⟩
      · simp only [descend, hex, hf, if_pos]
      · intro hnm
        exfalso
        rw [hnm (thresh (t + 1)) ex hex] at hf
        simp at hf
    · obtain ⟨st, hst, hcalls, hempty⟩ :=
        ih (if w = 0 ∧ 0 < ex.imageWidth then ex.imageWidth else w)
          (if w = 0 ∧ 0 < ex.imageWidth then ex.imageHeight else h) (d + 1) (c + 1)
      refine ⟨st, ?_, by omega, hempty⟩
      simp only [descend, hex, hf, if_neg]
      exact hst

/-- Claim C2: for every detector oracle (any sequence of responses) the
confidence-descent loop performs at most 5 detector calls (termination
is inherent in the total model), and when no response contains a
matching-class prediction the analysis returns a `detected:false`
result with zero area, zero confidence and no prediction-derived data
rather than an error. -/
theorem descent_bounded_and_graceful (oracle : ℚ → Except String Extracted)
    (hok : ∀ cf, ∃ ex, oracle cf = .ok ex) :
    ∃ st, descend oracle 5 0 0 0 0 = .ok st ∧ st.calls ≤ 5 ∧
      ((∀ cf ex, oracle cf = .ok ex → ex.predictions.filter matchesTarget = []) →
        ∃ r, analyzeImageWithRoboflow oracle = .ok r ∧ r.detected = false ∧
          r.area = 0 ∧ r.confidence = 0 ∧ r.boundingBox = none ∧
          r.allPolygons = none) := by
  obtain ⟨st, hst, hcalls, hempty⟩ := descend_total oracle hok 5 0 0 0 0
  refine ⟨st, hst, hcalls, ?_⟩
  intro hnm
  refine ⟨resultOfLoop st, ?_, ?_⟩
  · rw [analyzeImageWithRoboflow, hst]
    rfl
  · rw [resultOfLoop, if_pos (by rw [hempty hnm]; rfl)]
    exact ⟨rfl, rfl, rfl, rfl, rfl⟩

/-- Witness for C2: the always-empty oracle satisfies both hypotheses. -/
theorem descent_bounded_and_graceful_witness :
    ∃ st, descend oracleEmpty 5 0 0 0 0 = .ok st ∧ st.calls ≤ 5 ∧
      ((∀ cf ex, oracleEmpty cf = .ok ex →
          ex.predictions.filter matchesTarget = []) →
        ∃ r, analyzeImageWithRoboflow oracleEmpty = .ok r ∧ r.detected = false ∧
          r.area = 0 ∧ r.confidence = 0 ∧ r.boundingBox = none ∧
          r.allPolygons = none) :=
  descent_bounded_and_graceful oracleEmpty (fun _ => ⟨⟨[], none, 0, 0⟩, rfl⟩)

/-- The update `extendPoint` always yields a populated bounds value. -/
theorem extendPoint_isSome (b : Option Bounds) (px py : ℚ) :
    (extendPoint b px py).isSome := by
  rcases b with _ | ⟨mnx, mny, mxx, mxy⟩ <;> rfl

/-- A point fold that ends untouched started untouched on no points. -/
theorem foldl_extendPoint_eq_none (pts : List Point) :
    ∀ b : Option Bounds,
      pts.foldl (fun b pt => extendPoint b pt.x pt.y) b = none →
        pts = [] ∧ b = none := by
  induction pts with
  | nil => intro b hb; exact ⟨rfl, hb⟩
  | cons p ps ih =>
    intro b hb
    rw [List.foldl_cons] at hb
    obtain ⟨-, hnone⟩ := ih _ hb
    have := extendPoint_isSome b p.x p.y
    rw [hnone] at this
    cases this

/-- The update `extendBox` always yields a populated bounds value. -/
theorem extendBox_ne_none (b : Option Bounds) (l t r bo : ℚ) :
    extendBox b l t r bo ≠ none := by
  rcases b with _ | ⟨mnx, mny, mxx, mxy⟩ <;> simp [extendBox]

/-- If one aggregation step leaves the bounds untouched then they were
untouched before and the step contributed no area. -/
theorem aggStep_bounds_none (s : AggState) (p : RoboflowPrediction)
    (h : (aggStep s p).bounds = none) :
    s.bounds = none ∧ (aggStep s p).totalArea = s.totalArea := by
  obtain ⟨px, py, pw, ph, pc, pcls, ppts⟩ := p
  rcases ppts with _ | pts
  · unfold aggStep at h ⊢
    dsimp only at h ⊢
    by_cases hwh : pw ≠ 0 ∧ ph ≠ 0
    · rw [if_pos hwh] at h
      exact absurd h (extendBox_ne_none _ _ _ _ _)
    · rw [if_neg hwh] at h ⊢
      exact ⟨h, rfl⟩
  · unfold aggStep at h ⊢
    dsimp only at h ⊢
    by_cases hlen : 3 ≤ pts.length
    · rw [if_pos hlen] at h
      obtain ⟨hnil, -⟩ := foldl_extendPoint_eq_none pts s.bounds h
      rw [hnil] at hlen
      simp at hlen
    · rw [if_neg hlen] at h ⊢
      by_cases hwh : pw ≠ 0 ∧ ph ≠ 0
      · rw [if_pos hwh] at h
        exact absurd h (extendBox_ne_none _ _ _ _ _)
      · rw [if_neg hwh] at h ⊢
        exact ⟨h, rfl⟩

/-- Untouched bounds at the end of a run mean they were untouched at
its start. -/
theorem foldl_aggStep_bounds_none_start (preds : List RoboflowPrediction) :
    ∀ s : AggState, (preds.foldl aggStep s).bounds = none → s.bounds = none := by
  induction preds with
  | nil => intro s h; exact h
  | cons p ps ih =>
    intro s h
    rw [List.foldl_cons] at h
    exact (aggStep_bounds_none s p (ih _ h)).1

/-- Over a whole aggregation run, untouched bounds mean the total area
never moved off the initial value. -/
theorem foldl_aggStep_bounds_none (preds : List RoboflowPrediction) :
    ∀ s : AggState, (preds.foldl aggStep s).bounds = none →
      (preds.foldl aggStep s).totalArea = s.totalArea := by
  induction preds with
  | nil => intro s _; rfl
  | cons p ps ih =>
    intro s h
    rw [List.foldl_cons] at h ⊢
    have hmid : (aggStep s p).bounds = none := foldl_aggStep_bounds_none_start ps _ h
    rw [ih _ h]
    exact (aggStep_bounds_none s p hmid).2

/-- Claim C1 (amended): for every result produced by
`analyzeImageWithRoboflow`, `detected` is false exactly when the exact
(pre-rounding) total area of the surviving predictions is zero;
`detected = false` still forces the reported rounded `area` to be 0, and
whenever `detected` is true the `boundingBox` is present.  (The original
claim stated `detected = false ↔ area = 0` on the rounded field, which
fails because a nonzero exact area below `1/2` rounds to 0.) -/
theorem analyze_detected_invariant :
    (∀ oracle, analyzeImageWithRoboflow oracle =
      (descend oracle 5 0 0 0 0).map resultOfLoop) ∧
    ∀ st : LoopResult,
      ((resultOfLoop st).detected = false ↔
        (aggFold st.predictions).totalArea = 0) ∧
      ((resultOfLoop st).detected = false → (resultOfLoop st).area = 0) ∧
      ((resultOfLoop st).detected = true →
        (resultOfLoop st).boundingBox.isSome = true) := by
  refine ⟨fun _ => rfl, ?_⟩
  intro st
  rw [resultOfLoop]
  by_cases hemp : st.predictions.isEmpty
  · rw [if_pos hemp]
    rw [List.isEmpty_iff] at hemp
    rw [hemp]
    refine ⟨?_, fun _ => rfl, ?_⟩
    · simp [emptyImageResult, aggFold, aggInit]
    · intro hdet
      simp [emptyImageResult] at hdet
  · rw [if_neg hemp]
    rw [aggregate]
    by_cases hz : (aggFold st.predictions).totalArea = 0
    · rw [if_pos hz]
      refine ⟨?_, fun _ => rfl, ?_⟩
      · simp [emptyImageResult, hz]
      · intro hdet
        simp [emptyImageResult] at hdet
    · rw [if_neg hz]
      refine ⟨?_, ?_, ?_⟩
      · simp [hz]
      · intro hdet
        simp at hdet
      · intro _
        dsimp only
        rw [Option.isSome_map']
        rw [Option.isSome_iff_ne_none]
        intro hb
        exact hz (foldl_aggStep_bounds_none st.predictions aggInit hb)

/-- Counterexample for C1 as stated: `oracleTiny` produces a result
with `detected = true` and (rounded) `area = 0`, so
`detected = false ↔ area = 0` fails on it. -/
theorem analyze_detected_invariant_cex :
    analyzeImageWithRoboflow oracleTiny = .ok resultTiny ∧
    resultTiny.detected = true ∧ resultTiny.area = 0 ∧
    ¬(∀ r, analyzeImageWithRoboflow oracleTiny = .ok r →
      (r.detected = false ↔ r.area = 0)) := by
  have heq : analyzeImageWithRoboflow oracleTiny = .ok resultTiny := by
    norm_num [analyzeImageWithRoboflow, descend, oracleTiny, thresh, matchesTarget,
      predTiny, targetClass, resultOfLoop, aggregate, aggFold, aggStep,
      calculatePolygonArea, List.range_succ, extendPoint, jsRound,
      emptyImageResult, Except.map, aggInit, abs_of_nonneg, resultTiny]
  refine ⟨heq, rfl, rfl, ?_⟩
  intro hall
  have := (hall resultTiny heq).mpr rfl
  simp [resultTiny] at this

/-- Witness for C1: the implications of the amended invariant are
discharged at an empty loop state and at the tiny-polygon state. -/
theorem analyze_detected_invariant_witness :
    (resultOfLoop stateEmpty).area = 0 ∧
    (resultOfLoop stateTiny).boundingBox.isSome = true :=
  ⟨(analyze_detected_invariant.2 stateEmpty).2.1 (by
      norm_num [resultOfLoop, stateEmpty, emptyImageResult]),
   (analyze_detected_invariant.2 stateTiny).2.2 (by
      norm_num [resultOfLoop, stateTiny, aggregate, aggFold, aggStep, aggInit,
        predTiny, calculatePolygonArea, List.range_succ, extendPoint,
        emptyImageResult, jsRound, abs_of_nonneg])⟩

/-- Claim C9: the area-percentage division is guarded — whenever the
recovered image dimensions multiply to zero, the returned
`areaPercentage` is exactly 0, even when the detected total area is
nonzero. -/
theorem areaPercentage_guarded :
    (∀ (preds : List RoboflowPrediction) (mask : Option String) (w h : ℚ),
      w * h = 0 → (aggregate preds mask w h).areaPercentage = 0) ∧
    (∀ st : LoopResult, st.imageWidth * st.imageHeight = 0 →
      (resultOfLoop st).areaPercentage = 0) := by
  have hagg : ∀ (preds : List RoboflowPrediction) (mask : Option String) (w h : ℚ),
      w * h = 0 → (aggregate preds mask w h).areaPercentage = 0 := by
    intro preds mask w h hwh
    rw [aggregate]
    by_cases hz : (aggFold preds).totalArea = 0
    · rw [if_pos hz]
      rfl
    · rw [if_neg hz]
      dsimp only
      rw [if_neg (by rw [hwh]; exact lt_irrefl 0)]
      norm_num [jsRound]
  refine ⟨hagg, ?_⟩
  intro st hwh
  rw [resultOfLoop]
  by_cases hemp : st.predictions.isEmpty
  · rw [if_pos hemp]
    rfl
  · rw [if_neg hemp]
    exact hagg st.predictions st.maskImage st.imageWidth st.imageHeight hwh

/-- Witness for C9: a single 50-pixel² triangle in an image whose
recorded dimensions are zero still reports a zero percentage. -/
theorem areaPercentage_guarded_witness :
    (aggregate [predTri] none 0 0).areaPercentage = 0 :=
  areaPercentage_guarded.1 [predTri] none 0 0 (by norm_num)

/-- Claim C6 (amended): a prediction taking the box path contributes
exactly `width * height` to the total area whenever both extents are
nonzero — including when one of them is negative, in which case the
(possibly negative) product is added as-is — and contributes 0 when
either extent is zero.  (The original claim said a negative extent
contributes 0; the source has no such clamp.) -/
theorem box_area_contribution (s : AggState) (p : RoboflowPrediction)
    (hbox : p.points = none ∨ ∃ pts, p.points = some pts ∧ pts.length < 3) :
    (aggStep s p).totalArea =
      s.totalArea + (if p.width ≠ 0 ∧ p.height ≠ 0 then p.width * p.height else 0) := by
  obtain ⟨px, py, pw, ph, pc, pcls, ppts⟩ := p
  rcases hbox with hnone | ⟨pts, hsome, hlen⟩
  · cases hnone
    unfold aggStep
    dsimp only
    by_cases hwh : pw ≠ 0 ∧ ph ≠ 0
    · rw [if_pos hwh, if_pos hwh]
    · rw [if_neg hwh, if_neg hwh]
      rw [add_zero]
  · cases hsome
    unfold aggStep
    dsimp only
    rw [if_neg (by omega)]
    by_cases hwh : pw ≠ 0 ∧ ph ≠ 0
    · rw [if_pos hwh, if_pos hwh]
    · rw [if_neg hwh, if_neg hwh]
      rw [add_zero]

/-- Counterexample for C6 as stated: a box with width `-10` and height
`10` contributes `-100`, not the `0` the claim requires for a negative
extent. -/
theorem box_area_contribution_cex :
    predNegBox.points = none ∧ predNegBox.width < 0 ∧
    (aggStep aggInit predNegBox).totalArea = -100 ∧ (-100 : ℚ) ≠ 0 := by
  refine ⟨rfl, by norm_num [predNegBox], ?_, by norm_num⟩
  norm_num [aggStep, aggInit, predNegBox, extendBox]

/-- Witness for C6: the amended contribution rule applied to the
concrete 10×10 box. -/
theorem box_area_contribution_witness :
    (aggStep aggInit predBoxA).totalArea =
      aggInit.totalArea +
        (if predBoxA.width ≠ 0 ∧ predBoxA.height ≠ 0 then
          predBoxA.width * predBoxA.height else 0) :=
  box_area_contribution aggInit predBoxA (Or.inl rfl)

/-- Claim C10 (amended): a surviving prediction whose points list is
present but shorter than 3 entries is treated as a box, not a polygon:
it never adds a polygons entry; when both extents are nonzero it
contributes `width * height` to the area and its left/top and
right/bottom corners (center ± half extents) extend the union bounding
box; when either extent is zero it contributes nothing at all — in
particular its corners do not feed the bounding box, which the original
claim asserted unconditionally. -/
theorem short_points_treated_as_box (s : AggState) (p : RoboflowPrediction)
    (pts : List Point) (hpts : p.points = some pts) (hlen : pts.length < 3) :
    (aggStep s p).allPolygons = s.allPolygons ∧
    (aggStep s p).totalArea =
      s.totalArea +
        (if p.width ≠ 0 ∧ p.height ≠ 0 then p.width * p.height else 0) ∧
    (aggStep s p).bounds =
      (if p.width ≠ 0 ∧ p.height ≠ 0 then
        extendBox s.bounds (p.x - p.width / 2) (p.y - p.height / 2)
          (p.x + p.width / 2) (p.y + p.height / 2)
       else s.bounds) := by
  obtain ⟨px, py, pw, ph, pc, pcls, ppts⟩ := p
  cases hpts
  unfold aggStep
  dsimp only
  rw [if_neg (by omega)]
  by_cases hwh : pw ≠ 0 ∧ ph ≠ 0
  · rw [if_pos hwh, if_pos hwh, if_pos hwh]
    exact ⟨rfl, rfl, rfl⟩
  · rw [if_neg hwh, if_neg hwh, if_neg hwh]
    exact ⟨rfl, by rw [add_zero], rfl⟩

/-- Counterexample for C10 as stated: the zero-width prediction
`predDegenerate` (points list of length 1) leaves the union bounding
box untouched, whereas feeding its corners — as the claim requires —
would stretch the box out to x = 1000. -/
theorem short_points_treated_as_box_cex :
    (aggregate [predTri, predDegenerate] none 100 100).boundingBox
      = some ⟨5, 5, 10, 10⟩ ∧
    specUnionBBox (specPoints [predTri, predDegenerate])
      = some ⟨500, 1003 / 2, 1000, 1003⟩ ∧
    some (BBox.mk 5 5 10 10) ≠ some (BBox.mk 500 (1003 / 2) 1000 1003) := by
  refine ⟨?_, ?_, by norm_num [BBox.mk.injEq]⟩
  · norm_num [aggregate, aggFold, aggStep, aggInit, predTri, predDegenerate,
      extendPoint, extendBox, calculatePolygonArea, List.range_succ, jsRound,
      abs_of_nonneg]
  · norm_num [specUnionBBox, specPoints, specGeomPoints, specBoxCorners,
      predTri, predDegenerate]

/-- Witness for C10: the amended rule applied to the concrete
degenerate prediction. -/
theorem short_points_treated_as_box_witness :
    (aggStep aggInit predDegenerate).allPolygons = aggInit.allPolygons ∧
    (aggStep aggInit predDegenerate).totalArea =
      aggInit.totalArea +
        (if predDegenerate.width ≠ 0 ∧ predDegenerate.height ≠ 0 then
          predDegenerate.width * predDegenerate.height else 0) ∧
    (aggStep aggInit predDegenerate).bounds =
      (if predDegenerate.width ≠ 0 ∧ predDegenerate.height ≠ 0 then
        extendBox aggInit.bounds
          (predDegenerate.x - predDegenerate.width / 2)
          (predDegenerate.y - predDegenerate.height / 2)
          (predDegenerate.x + predDegenerate.width / 2)
          (predDegenerate.y + predDegenerate.height / 2)
       else aggInit.bounds) :=
  short_points_treated_as_box aggInit predDegenerate [⟨1, 1⟩] rfl (by norm_num)

/-- Claim C5 (amended): when the detector returns no matching-class
prediction at thresholds 0.5, 0.4, 0.3 and 0.2 and exactly one matching
prediction at threshold 0.1, the loop performs exactly 5 detector calls
— the match arriving on the 5th call, after 4 confidence descents — and
the analysis result is built from that single prediction.  (The
original claim said exactly 4 calls; 4 is the number of descents, the
call at 0.1 being the fifth.) -/
theorem descent_scenario (oracle : ℚ → Except String Extracted)
    (p : RoboflowPrediction) (e5 e4 e3 e2 e1 : Extracted)
    (h5 : oracle (thresh 5) = .ok e5)
    (hf5 : e5.predictions.filter matchesTarget = [])
    (h4 : oracle (thresh 4) = .ok e4)
    (hf4 : e4.predictions.filter matchesTarget = [])
    (h3 : oracle (thresh 3) = .ok e3)
    (hf3 : e3.predictions.filter matchesTarget = [])
    (h2 : oracle (thresh 2) = .ok e2)
    (hf2 : e2.predictions.filter matchesTarget = [])
    (h1 : oracle (thresh 1) = .ok e1)
    (hf1 : e1.predictions.filter matchesTarget = [p]) :
    descend oracle 5 0 0 0 0 =
      .ok ⟨[p], e1.maskImage, e1.imageWidth, e1.imageHeight, 4, 5⟩ ∧
    analyzeImageWithRoboflow oracle =
      .ok (aggregate [p] e1.maskImage e1.imageWidth e1.imageHeight) := by
  have hloop : descend oracle 5 0 0 0 0 =
      .ok ⟨[p], e1.maskImage, e1.imageWidth, e1.imageHeight, 4, 5⟩ := by
    norm_num [descend, h5, h4, h3, h2, h1, hf5, hf4, hf3, hf2, hf1]
  refine ⟨hloop, ?_⟩
  rw [analyzeImageWithRoboflow, hloop]
  rfl

/-- Counterexample for C5 as stated: in the concrete scenario
`oracleLow` the loop makes 5 calls, not 4. -/
theorem descent_scenario_cex :
    descend oracleLow 5 0 0 0 0 =
      .ok ⟨[predLow], some "mask", 200, 100, 4, 5⟩ ∧
    (descend oracleLow 5 0 0 0 0).map LoopResult.calls ≠ .ok 4 := by
  have hloop : descend oracleLow 5 0 0 0 0 =
      .ok ⟨[predLow], some "mask", 200, 100, 4, 5⟩ := by
    norm_num [descend, oracleLow, thresh, matchesTarget, predLow, targetClass]
  refine ⟨hloop, ?_⟩
  rw [hloop]
  simp [Except.map]

/-- Witness for C5: the hypotheses hold for the concrete `oracleLow`. -/
theorem descent_scenario_witness :
    descend oracleLow 5 0 0 0 0 =
      .ok ⟨[predLow], some "mask", 200, 100, 4, 5⟩ ∧
    analyzeImageWithRoboflow oracleLow =
      .ok (aggregate [predLow] (some "mask") 200 100) := by
  have h := descent_scenario oracleLow predLow
    ⟨[], none, 200, 100⟩ ⟨[], none, 200, 100⟩ ⟨[], none, 200, 100⟩
    ⟨[], none, 200, 100⟩ ⟨[predLow], some "mask", 200, 100⟩
    (by norm_num [oracleLow, thresh]) rfl
    (by norm_num [oracleLow, thresh]) rfl
    (by norm_num [oracleLow, thresh]) rfl
    (by norm_num [oracleLow, thresh]) rfl
    (by norm_num [oracleLow, thresh])
    (by simp [matchesTarget, predLow, targetClass])
  exact h

/-- Folding the four corners of a box (in spec order) through the
pointwise bounds update equals the source box update, provided the box
has nonnegative extents (left ≤ right and top ≤ bottom). -/
theorem foldl_corners_eq_extendBox (b : Option Bounds) (l t r bo : ℚ)
    (hlr : l ≤ r) (htb : t ≤ bo) :
    [Point.mk l t, ⟨r, t⟩, ⟨l, bo⟩, ⟨r, bo⟩].foldl
      (fun b pt => extendPoint b pt.x pt.y) b = extendBox b l t r bo := by
  rcases b with _ | ⟨a, c, d, e⟩
  · dsimp [extendPoint, extendBox]
    have h1 : min l r = l := min_eq_left hlr
    have h2 : max l r = r := max_eq_right hlr
    have h3 : min t t = t := min_self t
    have h4 : max t t = t := max_self t
    have h5 : min l l = l := min_self l
    have h6 : max r l = r := max_eq_left hlr
    have h7 : min t bo = t := min_eq_left htb
    have h8 : max t bo = bo := max_eq_right htb
    have h10 : max r r = r := max_self r
    have h12 : max bo bo = bo := max_self bo
    simp only [h1, h2, h3, h4, h5, h6, h7, h8, h10, h12]
  · dsimp [extendPoint, extendBox]
    have hxA : min (min a l) r = min a l :=
      min_eq_left (le_trans (min_le_right a l) hlr)
    have hxB : min (min a l) l = min a l := min_eq_left (min_le_right a l)
    have hyA : min (min c t) bo = min c t :=
      min_eq_left (le_trans (min_le_right c t) htb)
    have hyB : min (min c t) t = min c t := min_eq_left (min_le_right c t)
    have hdA : max (max d l) r = max d r := by
      rw [max_assoc, max_eq_right hlr]
    have hdB : max (max d r) l = max d r :=
      max_eq_left (le_trans hlr (le_max_right d r))
    have hdC : max (max d r) r = max d r := max_eq_left (le_max_right d r)
    have heZ : max (max e t) t = max e t := max_eq_left (le_max_right e t)
    have heA : max (max e t) bo = max e bo := by
      rw [max_assoc, max_eq_right htb]
    have heB : max (max e bo) t = max e bo :=
      max_eq_left (le_trans htb (le_max_right e bo))
    have heC : max (max e bo) bo = max e bo := max_eq_left (le_max_right e bo)
    simp only [hxA, hxB, hyA, hyB, hdA, hdB, hdC, heZ, heA, heB, heC]

/-- One aggregation step updates the bounds exactly as folding the
prediction geometry points of the spec, for a prediction that is
either polygon-form or a box with positive extents. -/
theorem aggStep_bounds_spec (s : AggState) (p : RoboflowPrediction)
    (hp : (∃ pts, p.points = some pts ∧ 3 ≤ pts.length) ∨
      (0 < p.width ∧ 0 < p.height)) :
    (aggStep s p).bounds =
      (specGeomPoints p).foldl (fun b pt => extendPoint b pt.x pt.y) s.bounds := by
  obtain ⟨px, py, pw, ph, pc, pcls, ppts⟩ := p
  rcases ppts with _ | pts
  · have hwpos : 0 < pw ∧ 0 < ph := by
      rcases hp with ⟨pts, hpts, -⟩ | hpos
      · cases hpts
      · exact hpos
    unfold aggStep specGeomPoints specBoxCorners
    dsimp only
    rw [if_pos ⟨ne_of_gt hwpos.1, ne_of_gt hwpos.2⟩]
    rw [foldl_corners_eq_extendBox s.bounds _ _ _ _ (by linarith [hwpos.1])
      (by linarith [hwpos.2])]
  · by_cases hlen : 3 ≤ pts.length
    · unfold aggStep specGeomPoints
      dsimp only
      rw [if_pos hlen, if_pos hlen]
    · have hwpos : 0 < pw ∧ 0 < ph := by
        rcases hp with ⟨pts', hpts', hlen'⟩ | hpos
        · cases hpts'
          exact absurd hlen' hlen
        · exact hpos
      unfold aggStep specGeomPoints specBoxCorners
      dsimp only
      rw [if_neg hlen, if_neg hlen,
        if_pos ⟨ne_of_gt hwpos.1, ne_of_gt hwpos.2⟩]
      rw [foldl_corners_eq_extendBox s.bounds _ _ _ _ (by linarith [hwpos.1])
        (by linarith [hwpos.2])]

/-- The list `specPoints` distributes over cons. -/
theorem specPoints_cons (p : RoboflowPrediction) (ps : List RoboflowPrediction) :
    specPoints (p :: ps) = specGeomPoints p ++ specPoints ps := by
  simp [specPoints]

/-- The whole aggregation run updates the bounds exactly as folding all
spec geometry points, when every prediction is polygon-form or a
positive-extent box. -/
theorem foldl_aggStep_bounds_spec (preds : List RoboflowPrediction)
    (hall : ∀ p ∈ preds, (∃ pts, p.points = some pts ∧ 3 ≤ pts.length) ∨
      (0 < p.width ∧ 0 < p.height)) :
    ∀ s : AggState,
      (preds.foldl aggStep s).bounds =
        (specPoints preds).foldl (fun b pt => extendPoint b pt.x pt.y) s.bounds := by
  induction preds with
  | nil => intro s; rfl
  | cons p ps ih =>
    intro s
    rw [List.foldl_cons, specPoints_cons, List.foldl_append]
    rw [ih (fun q hq => hall q (List.mem_cons_of_mem p hq))]
    rw [aggStep_bounds_spec s p (hall p (List.mem_cons_self p ps))]

/-- Folding points into populated bounds computes the componentwise
minima and maxima. -/
theorem foldl_extendPoint_some (pts : List Point) :
    ∀ a c d e : ℚ,
      pts.foldl (fun b pt => extendPoint b pt.x pt.y) (some (a, c, d, e)) =
        some (pts.foldl (fun m t => min m t.x) a,
          pts.foldl (fun m t => min m t.y) c,
          pts.foldl (fun m t => max m t.x) d,
          pts.foldl (fun m t => max m t.y) e) := by
  induction pts with
  | nil => intro a c d e; rfl
  | cons q qs ih =>
    intro a c d e
    rw [List.foldl_cons]
    have hstep : extendPoint (some (a, c, d, e)) q.x q.y
        = some (min a q.x, min c q.y, max d q.x, max e q.y) := rfl
    rw [hstep, ih]
    rfl

/-- Folding a nonempty point list from untouched bounds yields exactly
the min/max quadruple of the spec union-box computation. -/
theorem foldl_extendPoint_cons (q : Point) (rest : List Point) :
    (q :: rest).foldl (fun b pt => extendPoint b pt.x pt.y) none =
      some (rest.foldl (fun m t => min m t.x) q.x,
        rest.foldl (fun m t => min m t.y) q.y,
        rest.foldl (fun m t => max m t.x) q.x,
        rest.foldl (fun m t => max m t.y) q.y) := by
  rw [List.foldl_cons]
  exact foldl_extendPoint_some rest q.x q.y q.x q.y

/-- The spec geometry of a prediction is never empty. -/
theorem specGeomPoints_ne_nil (p : RoboflowPrediction) :
    specGeomPoints p ≠ [] := by
  obtain ⟨px, py, pw, ph, pc, pcls, ppts⟩ := p
  rcases ppts with _ | pts
  · simp [specGeomPoints, specBoxCorners]
  · by_cases hlen : 3 ≤ pts.length
    · simp only [specGeomPoints, if_pos hlen]
      intro hnil
      rw [hnil] at hlen
      simp at hlen
    · simp [specGeomPoints, if_neg hlen, specBoxCorners]

/-- The spec geometry of a nonempty prediction list is nonempty. -/
theorem specPoints_ne_nil (preds : List RoboflowPrediction) (h : preds ≠ []) :
    specPoints preds ≠ [] := by
  obtain ⟨p, ps, rfl⟩ := List.exists_cons_of_ne_nil h
  rw [specPoints_cons]
  intro hnil
  exact specGeomPoints_ne_nil p (List.append_eq_nil.mp hnil).1

/-- Claim C7 (amended): for every nonempty set of surviving predictions
with nonzero exact total area in which every box-path prediction has
positive extents, the aggregated `boundingBox` is exactly the spec
union box `{x:(minX+maxX)/2, y:(minY+maxY)/2, width:maxX-minX,
height:maxY-minY}` over every polygon vertex and every box corner; in
particular the two 10×10 boxes centered at (0,0) and (100,100) yield
`{x:50,y:50,width:110,height:110}`.  (The unamended universal claim
fails for a box with a negative extent, where the source takes the
minimum only against the left/top corner and the maximum only against
the right/bottom corner.) -/
theorem union_bbox_spec :
    (∀ (preds : List RoboflowPrediction) (mask : Option String) (w h : ℚ),
      preds ≠ [] →
      (∀ p ∈ preds, (∃ pts, p.points = some pts ∧ 3 ≤ pts.length) ∨
        (0 < p.width ∧ 0 < p.height)) →
      (aggFold preds).totalArea ≠ 0 →
      (aggregate preds mask w h).boundingBox = specUnionBBox (specPoints preds)) ∧
    (aggregate [predBoxA, predBoxB] none 1000 1000).boundingBox
      = some ⟨50, 50, 110, 110⟩ := by
  constructor
  · intro preds mask w h hne hall hz
    rw [aggregate]
    rw [if_neg hz]
    dsimp only
    have hb : (aggFold preds).bounds =
        (specPoints preds).foldl (fun b pt => extendPoint b pt.x pt.y) none :=
      foldl_aggStep_bounds_spec preds hall aggInit
    rw [hb]
    obtain ⟨q, rest, hqr⟩ :=
      List.exists_cons_of_ne_nil (specPoints_ne_nil preds hne)
    rw [hqr, foldl_extendPoint_cons, specUnionBBox]
    rfl
  · norm_num [aggregate, aggFold, aggStep, aggInit, predBoxA, predBoxB, extendBox]

/-- Counterexample for C7 as stated: a surviving box with width `-10`
gets the bounding box `{x:0,y:0,width:-10,height:10}` from the source,
while the all-corners min/max formula of the claim gives
`{x:0,y:0,width:10,height:10}`. -/
theorem union_bbox_spec_cex :
    (aggregate [predNegBox] none 100 100).boundingBox = some ⟨0, 0, -10, 10⟩ ∧
    specUnionBBox (specPoints [predNegBox]) = some ⟨0, 0, 10, 10⟩ ∧
    some (BBox.mk 0 0 (-10) 10) ≠ some (BBox.mk 0 0 10 10) := by
  refine ⟨?_, ?_, by norm_num [BBox.mk.injEq]⟩
  · norm_num [aggregate, aggFold, aggStep, aggInit, predNegBox, extendBox, jsRound]
  · norm_num [specUnionBBox, specPoints, specGeomPoints, specBoxCorners,
      predNegBox]

/-- Witness for C7: the hypotheses of the amended statement hold for
the concrete pair of boxes of the spec example. -/
theorem union_bbox_spec_witness :
    (aggregate [predBoxA, predBoxB] none 1000 1000).boundingBox
      = specUnionBBox (specPoints [predBoxA, predBoxB]) :=
  union_bbox_spec.1 [predBoxA, predBoxB] none 1000 1000 (by simp)
    (by
      intro p hp
      simp only [List.mem_cons, List.not_mem_nil, or_false] at hp
      rcases hp with rfl | rfl
      · exact Or.inr (by norm_num [predBoxA])
      · exact Or.inr (by norm_num [predBoxB]))
    (by norm_num [aggFold, aggStep, aggInit, predBoxA, predBoxB, extendBox])

/-- Claim C3 (amended): when the API key is absent and the payload
passes validation, both handlers emit exactly two frames: one
`progress` frame (validate running) followed by a single terminal
`error` frame.  (The original claim said no `progress` frame precedes
the error; the handlers start the validate stage — emitting its
progress frame — before checking the key.) -/
theorem missing_key_frames :
    ∀ (oracleB oracleA : ℚ → Except String Extracted) (clock : ℕ → ℚ) (ord : Bool),
      POST_seq true none oracleB oracleA clock =
        [.progress stepsVRun .validate, .error "Missing ROBOFLOW_API_KEY"] ∧
      POST_par true none oracleB oracleA clock ord =
        [.progress stepsVRun .validate, .error "Missing ROBOFLOW_API_KEY"] := by
  intro oB oA clock ord
  exact ⟨rfl, rfl⟩

/-- Counterexample for C3 as stated: in a concrete missing-key run the
emitted frames contain one `progress` frame, not zero, and the error is
not the only frame. -/
theorem missing_key_frames_cex :
    POST_seq true none oracleEmpty oracleEmpty clockZero =
      [.progress stepsVRun .validate, .error "Missing ROBOFLOW_API_KEY"] ∧
    (POST_seq true none oracleEmpty oracleEmpty clockZero).countP
      SSEEvent.isProgress = 1 ∧
    (POST_seq true none oracleEmpty oracleEmpty clockZero).length ≠ 1 := by
  refine ⟨rfl, ?_, ?_⟩
  · rfl
  · intro h
    simp [POST_seq] at h

/-- Claim C8: on every successful run (valid payload, key present, both
analyses succeed) the sequential handler emits validate running /
completed, prepare running / completed, analyze_before running /
completed, analyze_after running / completed, finalize running /
completed, then exactly one `complete` frame carrying both results and
the total duration, and nothing after it; the parallel handler emits
the same prefix, then both analyze steps running, their completions in
either resolution order, then finalize and the single `complete`
frame. -/
theorem success_event_sequence :
    ∀ (key : String) (oracleB oracleA : ℚ → Except String Extracted)
      (clock : ℕ → ℚ) (rB rA : ImageResult),
      analyzeImageWithRoboflow oracleB = .ok rB →
      analyzeImageWithRoboflow oracleA = .ok rA →
      (POST_seq true (some key) oracleB oracleA clock =
        [.progress stepsVRun .validate,
         .progress (stepsVDone (jsRound (clock 3 - clock 2))) .validate,
         .progress (stepsPRun (jsRound (clock 3 - clock 2))) .prepare,
         .progress (stepsPDone (jsRound (clock 3 - clock 2))
           (jsRound (clock 5 - clock 4))) .prepare,
         .progress (stepsBRun (jsRound (clock 3 - clock 2))
           (jsRound (clock 5 - clock 4))) .analyze_before,
         .progress (stepsBDone (jsRound (clock 3 - clock 2))
           (jsRound (clock 5 - clock 4)) (jsRound (clock 7 - clock 6)))
           .analyze_before,
         .progress (stepsARun (jsRound (clock 3 - clock 2))
           (jsRound (clock 5 - clock 4)) (jsRound (clock 7 - clock 6)))
           .analyze_after,
         .progress (stepsADone (jsRound (clock 3 - clock 2))
           (jsRound (clock 5 - clock 4)) (jsRound (clock 7 - clock 6))
           (jsRound (clock 9 - clock 8))) .analyze_after,
         .progress (stepsFRun (jsRound (clock 3 - clock 2))
           (jsRound (clock 5 - clock 4)) (jsRound (clock 7 - clock 6))
           (jsRound (clock 9 - clock 8))) .finalize,
         .progress (stepsFDone (jsRound (clock 3 - clock 2))
           (jsRound (clock 5 - clock 4)) (jsRound (clock 7 - clock 6))
           (jsRound (clock 9 - clock 8)) (jsRound (clock 11 - clock 10)))
           .finalize,
         .complete (stepsFDone (jsRound (clock 3 - clock 2))
           (jsRound (clock 5 - clock 4)) (jsRound (clock 7 - clock 6))
           (jsRound (clock 9 - clock 8)) (jsRound (clock 11 - clock 10)))
           (jsRound (clock 12 - clock 0)) ⟨rB, rA⟩]) ∧
      (∀ ord : Bool,
        POST_par true (some key) oracleB oracleA clock ord =
          [.progress stepsVRun .validate,
           .progress (stepsVDone (jsRound (clock 3 - clock 2))) .validate,
           .progress (stepsPRun (jsRound (clock 3 - clock 2))) .prepare,
           .progress (stepsPDone (jsRound (clock 3 - clock 2))
             (jsRound (clock 5 - clock 4))) .prepare,
           .progress (stepsBRun (jsRound (clock 3 - clock 2))
             (jsRound (clock 5 - clock 4))) .analyze_before,
           .progress (stepsBothRun (jsRound (clock 3 - clock 2))
             (jsRound (clock 5 - clock 4))) .analyze_after,
           .progress (stepsPar1 (if ord then .analyze_before else .analyze_after)
             (jsRound (clock 3 - clock 2)) (jsRound (clock 5 - clock 4))
             (jsRound (clock 7 - clock 6)))
             (if ord then .analyze_before else .analyze_after),
           .progress (stepsPar2 (if ord then .analyze_before else .analyze_after)
             (if ord then .analyze_after else .analyze_before)
             (jsRound (clock 3 - clock 2)) (jsRound (clock 5 - clock 4))
             (jsRound (clock 7 - clock 6)) (jsRound (clock 8 - clock 6)))
             (if ord then .analyze_after else .analyze_before),
           .progress (stepsParFRun (if ord then .analyze_before else .analyze_after)
             (if ord then .analyze_after else .analyze_before)
             (jsRound (clock 3 - clock 2)) (jsRound (clock 5 - clock 4))
             (jsRound (clock 7 - clock 6)) (jsRound (clock 8 - clock 6)))
             .finalize,
           .progress (stepsParFDone (if ord then .analyze_before else .analyze_after)
             (if ord then .analyze_after else .analyze_before)
             (jsRound (clock 3 - clock 2)) (jsRound (clock 5 - clock 4))
             (jsRound (clock 7 - clock 6)) (jsRound (clock 8 - clock 6))
             (jsRound (clock 10 - clock 9))) .finalize,
           .complete (stepsParFDone (if ord then .analyze_before else .analyze_after)
             (if ord then .analyze_after else .analyze_before)
             (jsRound (clock 3 - clock 2)) (jsRound (clock 5 - clock 4))
             (jsRound (clock 7 - clock 6)) (jsRound (clock 8 - clock 6))
             (jsRound (clock 10 - clock 9)))
             (jsRound (clock 11 - clock 0)) ⟨rB, rA⟩]) := by
  intro key oB oA clock rB rA hB hA
  constructor
  · unfold POST_seq
    simp only [hB, hA]
    rfl
  · intro ord
    unfold POST_par
    simp only [hB, hA]
    rfl

/-- Witness for C8: a concrete successful run (always-empty detector,
zero clock) realises both event sequences. -/
theorem success_event_sequence_witness :
    (POST_seq true (some "k") oracleEmpty oracleEmpty clockZero =
      [.progress stepsVRun .validate,
       .progress (stepsVDone (jsRound (clockZero 3 - clockZero 2))) .validate,
       .progress (stepsPRun (jsRound (clockZero 3 - clockZero 2))) .prepare,
       .progress (stepsPDone (jsRound (clockZero 3 - clockZero 2))
         (jsRound (clockZero 5 - clockZero 4))) .prepare,
       .progress (stepsBRun (jsRound (clockZero 3 - clockZero 2))
         (jsRound (clockZero 5 - clockZero 4))) .analyze_before,
       .progress (stepsBDone (jsRound (clockZero 3 - clockZero 2))
         (jsRound (clockZero 5 - clockZero 4))
         (jsRound (clockZero 7 - clockZero 6))) .analyze_before,
       .progress (stepsARun (jsRound (clockZero 3 - clockZero 2))
         (jsRound (clockZero 5 - clockZero 4))
         (jsRound (clockZero 7 - clockZero 6))) .analyze_after,
       .progress (stepsADone (jsRound (clockZero 3 - clockZero 2))
         (jsRound (clockZero 5 - clockZero 4))
         (jsRound (clockZero 7 - clockZero 6))
         (jsRound (clockZero 9 - clockZero 8))) .analyze_after,
       .progress (stepsFRun (jsRound (clockZero 3 - clockZero 2))
         (jsRound (clockZero 5 - clockZero 4))
         (jsRound (clockZero 7 - clockZero 6))
         (jsRound (clockZero 9 - clockZero 8))) .finalize,
       .progress (stepsFDone (jsRound (clockZero 3 - clockZero 2))
         (jsRound (clockZero 5 - clockZero 4))
         (jsRound (clockZero 7 - clockZero 6))
         (jsRound (clockZero 9 - clockZero 8))
         (jsRound (clockZero 11 - clockZero 10))) .finalize,
       .complete (stepsFDone (jsRound (clockZero 3 - clockZero 2))
         (jsRound (clockZero 5 - clockZero 4))
         (jsRound (clockZero 7 - clockZero 6))
         (jsRound (clockZero 9 - clockZero 8))
         (jsRound (clockZero 11 - clockZero 10)))
         (jsRound (clockZero 12 - clockZero 0))
         ⟨emptyImageResult 0 0, emptyImageResult 0 0⟩]) ∧
    (POST_par true (some "k") oracleEmpty oracleEmpty clockZero true =
      [.progress stepsVRun .validate,
       .progress (stepsVDone (jsRound (clockZero 3 - clockZero 2))) .validate,
       .progress (stepsPRun (jsRound (clockZero 3 - clockZero 2))) .prepare,
       .progress (stepsPDone (jsRound (clockZero 3 - clockZero 2))
         (jsRound (clockZero 5 - clockZero 4))) .prepare,
       .progress (stepsBRun (jsRound (clockZero 3 - clockZero 2))
         (jsRound (clockZero 5 - clockZero 4))) .analyze_before,
       .progress (stepsBothRun (jsRound (clockZero 3 - clockZero 2))
         (jsRound (clockZero 5 - clockZero 4))) .analyze_after,
       .progress (stepsPar1 (if true then StepName.analyze_before else .analyze_after)
         (jsRound (clockZero 3 - clockZero 2))
         (jsRound (clockZero 5 - clockZero 4))
         (jsRound (clockZero 7 - clockZero 6)))
         (if true then StepName.analyze_before else .analyze_after),
       .progress (stepsPar2 (if true then StepName.analyze_before else .analyze_after)
         (if true then StepName.analyze_after else .analyze_before)
         (jsRound (clockZero 3 - clockZero 2))
         (jsRound (clockZero 5 - clockZero 4))
         (jsRound (clockZero 7 - clockZero 6))
         (jsRound (clockZero 8 - clockZero 6)))
         (if true then StepName.analyze_after else .analyze_before),
       .progress (stepsParFRun (if true then StepName.analyze_before else .analyze_after)
         (if true then StepName.analyze_after else .analyze_before)
         (jsRound (clockZero 3 - clockZero 2))
         (jsRound (clockZero 5 - clockZero 4))
         (jsRound (clockZero 7 - clockZero 6))
         (jsRound (clockZero 8 - clockZero 6))) .finalize,
       .progress (stepsParFDone (if true then StepName.analyze_before else .analyze_after)
         (if true then StepName.analyze_after else .analyze_before)
         (jsRound (clockZero 3 - clockZero 2))
         (jsRound (clockZero 5 - clockZero 4))
         (jsRound (clockZero 7 - clockZero 6))
         (jsRound (clockZero 8 - clockZero 6))
         (jsRound (clockZero 10 - clockZero 9))) .finalize,
       .complete (stepsParFDone (if true then StepName.analyze_before else .analyze_after)
         (if true then StepName.analyze_after else .analyze_before)
         (jsRound (clockZero 3 - clockZero 2))
         (jsRound (clockZero 5 - clockZero 4))
         (jsRound (clockZero 7 - clockZero 6))
         (jsRound (clockZero 8 - clockZero 6))
         (jsRound (clockZero 10 - clockZero 9)))
         (jsRound (clockZero 11 - clockZero 0))
         ⟨emptyImageResult 0 0, emptyImageResult 0 0⟩]) := by
  have hE : analyzeImageWithRoboflow oracleEmpty = .ok (emptyImageResult 0 0) := by
    norm_num [analyzeImageWithRoboflow, descend, oracleEmpty, thresh, resultOfLoop,
      emptyImageResult, Except.map]
  exact ⟨(success_event_sequence "k" oracleEmpty oracleEmpty clockZero
      (emptyImageResult 0 0) (emptyImageResult 0 0) hE hE).1,
    (success_event_sequence "k" oracleEmpty oracleEmpty clockZero
      (emptyImageResult 0 0) (emptyImageResult 0 0) hE hE).2 true⟩

end ScalpComparisor
